import Mathlib

/-!
Verification of the `ratio_corr_gammas` package: the Ratio of Correlated
Gammas (RCG) density (`dist.py`), the custom rejection sampler
(`rejection_sampler.py`) and the sampling orchestrator (`sample.py`).

Python floats are modelled as real numbers; outputs of opaque external
numeric routines (`scipy.integrate.quad`, `scipy.optimize.minimize_scalar`,
the uniform random draws) are passed in as explicit parameters.  Raised
exceptions are modelled with `Except`.
-/

namespace RatioCorrGammas

/-- The exceptions raised across the package, named by their trigger. -/
inductive Err where
  | alphaInvalid
  | rhoInvalid
  | normalizationFailed
  | thetaMissing
  | thetaInvalid
  | efficiencyTooLow
  | sizeTooLarge
deriving DecidableEq

/-- The parameter state stored by `ratio_of_correlated_gammas.__init__`
(`dist.py` lines 34-38): `alpha`, `lambda_m`, `lambda_u`,
`theta = lambda_m / lambda_u`, `rho`. -/
structure RCGParams where
  alpha : ℝ
  lambda_m : ℝ
  lambda_u : ℝ
  theta : ℝ
  rho : ℝ

/-- The base of the denominator power in `_pdf` (`dist.py` lines 162-163):
`(lambda_m*betaval + lambda_u*(1-betaval))^2
 - 4*rho*lambda_m*lambda_u*betaval*(1-betaval)`. -/
noncomputable def denomBase (lambda_m lambda_u rho betaval : ℝ) : ℝ :=
  (lambda_m * betaval + lambda_u * (1 - betaval)) ^ 2
    - 4 * rho * lambda_m * lambda_u * betaval * (1 - betaval)

/-- Embedding of `ratio_of_correlated_gammas._pdf` (`dist.py` lines
137-167): the RCG density, accumulated exactly as in the source (`dens += ...`, `dens *= ...`,
`dens /= ...`); real powers model `**` and `np.power`. -/
noncomputable def pdfRCG (alpha lambda_m lambda_u rho betaval : ℝ) : ℝ :=
  Real.Gamma (2 * alpha) / Real.Gamma alpha ^ 2
    * (lambda_m * lambda_u) ^ alpha
    * (1 - rho) ^ alpha
    * (betaval * (1 - betaval)) ^ (alpha - 1)
    * (lambda_m * betaval + lambda_u * (1 - betaval))
    / denomBase lambda_m lambda_u rho betaval ^ (alpha + 0.5)

/-- The closed-form RCG density exactly as the specification writes it:
`[Γ(2α)/Γ(α)²] · (λm·λu)^α · (1-ρ)^α · [x(1-x)]^(α-1) · [λm·x + λu·(1-x)]
 / {[λm·x + λu·(1-x)]² − 4ρ·λm·λu·x·(1-x)}^(α+0.5)`.
Written from the spec's words, to be compared with `pdfRCG` (from the
source) in the refinement theorem. -/
noncomputable def rcgDensitySpec (alpha lambda_m lambda_u rho x : ℝ) : ℝ :=
  Real.Gamma (2 * alpha) / Real.Gamma alpha ^ 2
    * (lambda_m * lambda_u) ^ alpha
    * (1 - rho) ^ alpha
    * (x * (1 - x)) ^ (alpha - 1)
    * (lambda_m * x + lambda_u * (1 - x))
    / ((lambda_m * x + lambda_u * (1 - x)) ^ 2
        - 4 * rho * lambda_m * lambda_u * x * (1 - x)) ^ (alpha + 0.5)

/-- Numpy's `assert_almost_equal(actual, desired, decimal=5)` succeeds
exactly when `abs(desired - actual) < 1.5 * 10**(-5)` (numpy's documented
criterion), as invoked by `_check_pdf` (`dist.py` line 199). -/
def assertAlmostEqual5 (actual desired : ℝ) : Prop :=
  |desired - actual| < 1.5 * (10 : ℝ) ^ (-5 : ℤ)

open Classical in
/-- Embedding of `ratio_of_correlated_gammas.__init__` (`dist.py` lines 27-41) followed
by `_check_pdf` (lines 189-199).  `quadIntegral` is the value returned by
the opaque numeric routine `scipy.integrate.quad(self.pdf, 0, 1)[0]`. -/
noncomputable def mkRCG (alpha lambda_m lambda_u rho quadIntegral : ℝ) :
    Except Err RCGParams :=
  if alpha ≤ 1 then .error .alphaInvalid
  else if ¬ (0 ≤ rho ∧ rho ≤ 1) then .error .rhoInvalid
  else if ¬ assertAlmostEqual5 quadIntegral 1 then .error .normalizationFailed
  else .ok { alpha := alpha, lambda_m := lambda_m, lambda_u := lambda_u,
             theta := lambda_m / lambda_u, rho := rho }

/-- The state held by `RejectionSamplerRCG` (`rejection_sampler.py`
lines 29-36): the envelope scale `M` and the `efficiency` field. -/
structure SamplerState where
  M : ℝ
  efficiency : ℝ

open Classical in
/-- Embedding of `RejectionSamplerRCG.__init__` (`rejection_sampler.py` lines 29-36).
`Mest` is the value returned by the opaque numeric routine
`_calculate_M` (a bounded Brent minimization of `-pdf`); the constructor
sets `M = Mest`, `efficiency = 1 / M`, and raises when
`efficiency < 0.01`. -/
noncomputable def mkSampler (Mest : ℝ) : Except Err SamplerState :=
  let M := Mest
  let efficiency := 1 / M
  if efficiency < 0.01 then .error .efficiencyTooLow
  else .ok { M := M, efficiency := efficiency }

/-- The `M` property setter (`rejection_sampler.py` lines 43-45): it
assigns `_M` only; no other field is touched. -/
def setM (s : SamplerState) (value : ℝ) : SamplerState :=
  { s with M := value }

/-- The value `np.finfo(np.float32).max = (2 - 2^-23) * 2^127`, the guard bound in
`rvs` (`rejection_sampler.py` line 76). -/
noncomputable def float32max : ℝ := (2 ^ 24 - 1) * 2 ^ 104

/-- The candidate-batch size computed in `rvs` (`rejection_sampler.py`
lines 72-75): `size_ = int(size * self.M) * oversample_scale` with
`oversample_scale = 10` (`int` truncation coincides with the floor for
the nonnegative products that arise). -/
noncomputable def candCount (M : ℝ) (size : ℕ) : ℕ :=
  (⌊(size : ℝ) * M⌋).toNat * 10

open Classical in
/-- The accepted candidates of `rvs` (`rejection_sampler.py` lines 79-85),
in generation order: among the first `n` uniform draws `(u1 i, u2 i)`,
keep `u1 i` where `u2 i ≤ pdf (u1 i) / M`. -/
noncomputable def acceptedCandidates (pdfFn : ℝ → ℝ) (M : ℝ) (n : ℕ)
    (draws : ℕ → ℝ × ℝ) : List ℝ :=
  (((List.range n).map draws).filter
    (fun p => decide (p.2 ≤ pdfFn p.1 / M))).map Prod.fst

open Classical in
/-- Embedding of `RejectionSamplerRCG.rvs` (`rejection_sampler.py` lines 47-91).
`pdfFn` is `self.dist.pdf`; `draws` supplies the uniform variates `u1`
and `u2` drawn from the generator.  Raises when `size_` reaches the
float32 maximum; otherwise returns the accepted candidates truncated to
`size` (the under-production warning is a print, not an exception). -/
noncomputable def rvs (pdfFn : ℝ → ℝ) (M : ℝ) (size : ℕ)
    (draws : ℕ → ℝ × ℝ) : Except Err (List ℝ) :=
  let size_ := candCount M size
  if (size_ : ℝ) ≥ float32max then .error .sizeTooLarge
  else .ok ((acceptedCandidates pdfFn M size_ draws).take size)

/-- The three sampler variants dispatched by `simulate_betavals_rcg`
(`sample.py` lines 44-48): SimpleRatioUniforms, TransformedDensityRejection,
RejectionSamplerRCG. -/
inductive Strategy where
  | sru
  | tdr
  | rej
deriving DecidableEq

open Classical in
/-- Embedding of `simulate_betavals_rcg`, `dist is None` branch (`sample.py` lines
50-57): requires `theta`, requires `theta > 0`, then passes
`lambda_m = scale * max(theta, 1.)` and `lambda_u = scale * 1. / min(theta, 1.)`
to the distribution constructor.  Returns that `(lambda_m, lambda_u)` pair. -/
noncomputable def resolveRates (theta : Option ℝ) (scale : ℝ) :
    Except Err (ℝ × ℝ) :=
  match theta with
  | none => .error .thetaMissing
  | some t =>
    if t ≤ 0 then .error .thetaInvalid
    else .ok (scale * max t 1, scale * (1 / min t 1))

open Classical in
/-- Embedding of `simulate_betavals_rcg`, default strategy selection (`sample.py` lines
59-67, `sampler is None`): if `alpha > 1` use TransformedDensityRejection;
otherwise construct `RejectionSamplerRCG` (whose constructor may raise)
and switch to SimpleRatioUniforms when its efficiency is below 0.01.
`Mest` is the `_calculate_M` estimate for the custom sampler. -/
noncomputable def chooseSampler (alpha Mest : ℝ) : Except Err Strategy :=
  if 1 < alpha then .ok .tdr
  else
    match mkSampler Mest with
    | .error e => .error e
    | .ok s => if s.efficiency < 0.01 then .ok .sru else .ok .rej

/-- The `except` branch of `simulate_betavals_rcg` (`sample.py` lines
71-75): construct a fresh `RejectionSamplerRCG` (with estimate `Mest`
from `_calculate_M`), assign `sampler.M = 1_000`, and run `rvs`. -/
noncomputable def fallbackRvs (pdfFn : ℝ → ℝ) (Mest : ℝ) (size : ℕ)
    (draws : ℕ → ℝ × ℝ) : Except Err (List ℝ) :=
  match mkSampler Mest with
  | .error e => .error e
  | .ok s => rvs pdfFn (setM s 1000).M size draws

/-- The `try`/`except` of `simulate_betavals_rcg` (`sample.py` lines
69-75): `primary` is the outcome of the chosen sampler's `rvs`; on any
error the single fallback attempt `fallbackRvs` runs, and its own outcome
(success or error) is final. -/
noncomputable def samplePhase (primary : Except Err (List ℝ))
    (pdfFn : ℝ → ℝ) (Mest : ℝ) (size : ℕ) (draws : ℕ → ℝ × ℝ) :
    Except Err (List ℝ) :=
  match primary with
  | .ok samples => .ok samples
  | .error _ => fallbackRvs pdfFn Mest size draws

/-! ## Theorems -/

/-- C1: for every valid parameter set (alpha > 1, lambda_m > 0,
lambda_u > 0, rho in [0,1]) and every x in [0,1], the code's `_pdf`
agrees with the closed-form RCG density of the specification, and in
particular `pdf 0 = 0` and `pdf 1 = 0` when alpha > 1. -/
theorem pdf_matches_closed_form_and_boundary
    (alpha lambda_m lambda_u rho x : ℝ)
    (ha : 1 < alpha) (hm : 0 < lambda_m) (hu : 0 < lambda_u)
    (hr0 : 0 ≤ rho) (hr1 : rho ≤ 1) (hx0 : 0 ≤ x) (hx1 : x ≤ 1) :
    pdfRCG alpha lambda_m lambda_u rho x
        = rcgDensitySpec alpha lambda_m lambda_u rho x ∧
    pdfRCG alpha lambda_m lambda_u rho 0 = 0 ∧
    pdfRCG alpha lambda_m lambda_u rho 1 = 0 := by
  have hne : alpha - 1 ≠ 0 := sub_ne_zero.mpr ha.ne'
  refine ⟨rfl, ?_, ?_⟩
  · unfold pdfRCG
    rw [show (0 : ℝ) * (1 - 0) = 0 by norm_num, Real.zero_rpow hne]
    simp
  · unfold pdfRCG
    rw [show (1 : ℝ) * (1 - 1) = 0 by norm_num, Real.zero_rpow hne]
    simp

/-- Witness for C1 at alpha = 2, lambda_m = 1, lambda_u = 1/2,
rho = 45/100, x = 1/2. -/
theorem pdf_matches_closed_form_and_boundary_witness :
    pdfRCG 2 1 (1/2) (45/100) (1/2)
        = rcgDensitySpec 2 1 (1/2) (45/100) (1/2) ∧
    pdfRCG 2 1 (1/2) (45/100) 0 = 0 ∧
    pdfRCG 2 1 (1/2) (45/100) 1 = 0 :=
  pdf_matches_closed_form_and_boundary 2 1 (1/2) (45/100) (1/2)
    (by norm_num) (by norm_num) (by norm_num) (by norm_num) (by norm_num)
    (by norm_num) (by norm_num)

/-- C10 counterexample: at the valid parameter set alpha = 2,
lambda_m = lambda_u = 1, rho = 1, and x = 1/2 in (0,1), the
denominator base of `_pdf` is 0, not strictly positive, so the claim's
parenthetical fails at rho = 1. -/
theorem denominator_zero_at_rho_one :
    denomBase 1 1 1 (1/2) = 0 ∧ ¬ (0 < denomBase 1 1 1 (1/2)) := by
  have h : denomBase 1 1 1 (1/2) = 0 := by unfold denomBase; norm_num
  exact ⟨h, by rw [h]; exact lt_irrefl 0⟩

/-- C10 amended: for alpha > 1, lambda_m > 0, lambda_u > 0 and
rho in [0,1) (strictly below 1), the denominator base is strictly
positive on (0,1) and the pdf is nonnegative there. -/
theorem pdf_nonneg_denominator_pos
    (alpha lambda_m lambda_u rho x : ℝ)
    (ha : 1 < alpha) (hm : 0 < lambda_m) (hu : 0 < lambda_u)
    (hr0 : 0 ≤ rho) (hr1 : rho < 1) (hx0 : 0 < x) (hx1 : x < 1) :
    0 < denomBase lambda_m lambda_u rho x ∧
    0 ≤ pdfRCG alpha lambda_m lambda_u rho x := by
  have hax : 0 < lambda_m * x := mul_pos hm hx0
  have hbx : 0 < lambda_u * (1 - x) := mul_pos hu (by linarith)
  have hd : 0 < denomBase lambda_m lambda_u rho x := by
    unfold denomBase
    nlinarith [sq_nonneg (lambda_m * x - lambda_u * (1 - x)),
      mul_pos (mul_pos hax hbx) (sub_pos.mpr hr1)]
  refine ⟨hd, ?_⟩
  unfold pdfRCG
  apply div_nonneg
  · refine mul_nonneg (mul_nonneg (mul_nonneg (mul_nonneg ?_ ?_) ?_) ?_) ?_
    · exact div_nonneg (Real.Gamma_pos_of_pos (by linarith)).le (sq_nonneg _)
    · exact Real.rpow_nonneg (mul_pos hm hu).le _
    · exact Real.rpow_nonneg (by linarith) _
    · exact Real.rpow_nonneg (mul_nonneg hx0.le (by linarith)) _
    · linarith
  · exact Real.rpow_nonneg hd.le _

/-- Witness for the amended C10 at alpha = 2, lambda_m = lambda_u = 1,
rho = 1/2, x = 1/2. -/
theorem pdf_nonneg_denominator_pos_witness :
    0 < denomBase 1 1 (1/2) (1/2) ∧ 0 ≤ pdfRCG 2 1 1 (1/2) (1/2) :=
  pdf_nonneg_denominator_pos 2 1 1 (1/2) (1/2) (by norm_num) (by norm_num)
    (by norm_num) (by norm_num) (by norm_num) (by norm_num) (by norm_num)

/-- C2 counterexample: `rvs` does not succeed for every requested size —
with envelope scale M = 1 and size 2^130, the candidate-batch guard
`size_ >= np.finfo(np.float32).max` trips and `rvs` raises instead of
returning a batch. -/
theorem rvs_size_guard_trips :
    rvs (fun _ => 0) 1 (2 ^ 130) (fun _ => (0, 0)) =
      .error .sizeTooLarge := by
  have hc : candCount 1 (2 ^ 130) = 2 ^ 130 * 10 := by
    unfold candCount
    rw [mul_one, Int.floor_natCast, Int.toNat_natCast]
  have h : ((candCount 1 (2 ^ 130) : ℕ) : ℝ) ≥ float32max := by
    rw [hc]
    unfold float32max
    push_cast
    norm_num
  simp only [rvs]
  rw [if_pos h]

/-- C2 amended: whenever the candidate-batch size guard does not trip and
the uniform draws lie in [0,1], `rvs` returns exactly the accepted
candidates in generation order truncated to `size`; the batch has length
at most `size` and all its elements lie in [0,1]; an insufficient number
of accepted candidates still yields a successful (shorter) batch. -/
theorem rvs_accepted_truncated
    (pdfFn : ℝ → ℝ) (M : ℝ) (size : ℕ) (draws : ℕ → ℝ × ℝ)
    (hguard : ((candCount M size : ℕ) : ℝ) < float32max)
    (hdraws : ∀ i, 0 ≤ (draws i).1 ∧ (draws i).1 ≤ 1) :
    rvs pdfFn M size draws =
      .ok ((acceptedCandidates pdfFn M (candCount M size) draws).take size) ∧
    ((acceptedCandidates pdfFn M (candCount M size) draws).take size).length
      ≤ size ∧
    (∀ y ∈ (acceptedCandidates pdfFn M (candCount M size) draws).take size,
      0 ≤ y ∧ y ≤ 1) := by
  refine ⟨?_, ?_, ?_⟩
  · simp only [rvs]
    rw [if_neg (not_le.mpr hguard)]
  · exact (List.length_take_le _ _)
  · intro y hy
    have hy2 : y ∈ acceptedCandidates pdfFn M (candCount M size) draws :=
      List.mem_of_mem_take hy
    unfold acceptedCandidates at hy2
    simp only [List.mem_map, List.mem_filter, List.mem_range] at hy2
    obtain ⟨p, ⟨⟨i, _, hip⟩, _⟩, hpy⟩ := hy2
    rw [← hpy, ← hip]
    exact hdraws i

/-- Witness for the amended C2 with the constant density 1, M = 1,
size = 1 and constant draws (1/2, 1/2). -/
theorem rvs_accepted_truncated_witness :
    rvs (fun _ => 1) 1 1 (fun _ => (1/2, 1/2)) =
      .ok ((acceptedCandidates (fun _ => 1) 1 (candCount 1 1)
        (fun _ => (1/2, 1/2))).take 1) ∧
    ((acceptedCandidates (fun _ => 1) 1 (candCount 1 1)
        (fun _ => (1/2, 1/2))).take 1).length ≤ 1 ∧
    (∀ y ∈ (acceptedCandidates (fun _ => 1) 1 (candCount 1 1)
        (fun _ => (1/2, 1/2))).take 1, 0 ≤ y ∧ y ≤ 1) :=
  rvs_accepted_truncated (fun _ => 1) 1 1 (fun _ => (1/2, 1/2))
    (by
      have hc : candCount 1 1 = 10 := by
        unfold candCount
        rw [mul_one, show ((1 : ℕ) : ℝ) = ((1 : ℕ) : ℝ) from rfl,
          Int.floor_natCast, Int.toNat_natCast]
      rw [hc]
      unfold float32max
      push_cast
      norm_num)
    (fun _ => by norm_num)

/-- C3 counterexample: the fallback attempt is not guaranteed to succeed.
When the primary sampler has failed and the fresh `RejectionSamplerRCG`
construction estimates M = 200 (efficiency 1/200 < 0.01), the fallback
constructor raises before M is ever overridden to 1000, and the error
propagates out of `simulate_betavals_rcg`. -/
theorem fallback_attempt_can_fail :
    samplePhase (.error .sizeTooLarge) (fun _ => 0) 200 1 (fun _ => (0, 0)) =
      .error .efficiencyTooLow := by
  have hm : mkSampler 200 = .error .efficiencyTooLow := by
    simp only [mkSampler]
    rw [if_pos (by norm_num : (1 : ℝ) / 200 < 0.01)]
  simp only [samplePhase, fallbackRvs, hm]

/-- C3 amended: when the chosen sampler raises, the orchestrator performs
exactly one retry, running `rvs` with the envelope scale forced to 1000;
provided the freshly estimated efficiency passes the constructor's
threshold, the retry indeed runs `rvs` at M = 1000 (it may still raise,
for instance through the size guard). -/
theorem fallback_retries_once_with_M_1000
    (pdfFn : ℝ → ℝ) (Mest : ℝ) (size : ℕ) (draws : ℕ → ℝ × ℝ) (e : Err)
    (h : 0.01 ≤ 1 / Mest) :
    samplePhase (.error e) pdfFn Mest size draws =
      rvs pdfFn 1000 size draws := by
  have hm : mkSampler Mest = .ok ⟨Mest, 1 / Mest⟩ := by
    simp only [mkSampler]
    rw [if_neg (not_lt.mpr h)]
  simp only [samplePhase, fallbackRvs, hm, setM]

/-- Witness for the amended C3 at Mest = 2, size = 0. -/
theorem fallback_retries_once_with_M_1000_witness :
    samplePhase (.error .sizeTooLarge) (fun _ => 0) 2 0 (fun _ => (0, 0)) =
      rvs (fun _ => 0) 1000 0 (fun _ => (0, 0)) :=
  fallback_retries_once_with_M_1000 (fun _ => 0) 2 0 (fun _ => (0, 0))
    .sizeTooLarge (by norm_num)

/-- C4 counterexample: at quadrature result I = 1 + 12/1000000 the
integral differs from 1 by 1.2e-5 > 1e-5, yet construction succeeds,
because numpy's `decimal=5` criterion only rejects differences of at
least 1.5e-5. -/
theorem normalization_tolerance_counterexample :
    mkRCG 2 1 (1/2) (45/100) (1 + 12/1000000) =
      .ok ⟨2, 1, 1/2, 1/(1/2), 45/100⟩ ∧
    1/100000 < |(1 + 12/1000000 : ℝ) - 1| := by
  constructor
  · have hpass : assertAlmostEqual5 (1 + 12/1000000) 1 := by
      unfold assertAlmostEqual5
      rw [show (1 : ℝ) - (1 + 12/1000000) = -(12/1000000) by norm_num,
        abs_neg, abs_of_nonneg (by norm_num)]
      norm_num
    simp only [mkRCG]
    rw [if_neg (by norm_num), if_neg (not_not_intro ⟨by norm_num, by norm_num⟩),
      if_neg (not_not_intro hpass)]
  · rw [show (1 + 12/1000000 : ℝ) - 1 = 12/1000000 by norm_num,
      abs_of_nonneg (by norm_num)]
    norm_num

/-- C4 amended: for valid alpha and rho, construction fails on the
normalization self-check exactly when the numeric integral I differs
from 1 by at least 1.5e-5 (the `decimal=5` tolerance), and succeeds when
the difference is below that tolerance. -/
theorem normalization_check_spec
    (alpha lambda_m lambda_u rho I : ℝ)
    (ha : 1 < alpha) (hr0 : 0 ≤ rho) (hr1 : rho ≤ 1) :
    (mkRCG alpha lambda_m lambda_u rho I = .error .normalizationFailed ↔
      1.5 * (10 : ℝ) ^ (-5 : ℤ) ≤ |1 - I|) ∧
    (|1 - I| < 1.5 * (10 : ℝ) ^ (-5 : ℤ) →
      mkRCG alpha lambda_m lambda_u rho I =
        .ok ⟨alpha, lambda_m, lambda_u, lambda_m / lambda_u, rho⟩) := by
  simp only [mkRCG, assertAlmostEqual5]
  rw [if_neg (not_le.mpr ha), if_neg (not_not_intro ⟨hr0, hr1⟩)]
  by_cases h : |1 - I| < 1.5 * (10 : ℝ) ^ (-5 : ℤ)
  · rw [if_neg (not_not_intro h)]
    refine ⟨⟨fun hc => absurd hc (by simp), fun hc => absurd h (not_lt.mpr hc)⟩,
      fun _ => rfl⟩
  · rw [if_pos h]
    exact ⟨⟨fun _ => not_lt.mp h, fun _ => rfl⟩,
      fun hc => absurd hc h⟩

/-- Witness for the amended C4 at alpha = 2, lambda_m = 1,
lambda_u = 1/2, rho = 45/100, I = 1. -/
theorem normalization_check_spec_witness :
    mkRCG 2 1 (1/2) (45/100) 1 = .ok ⟨2, 1, 1/2, 1/(1/2), 45/100⟩ :=
  (normalization_check_spec 2 1 (1/2) (45/100) 1 (by norm_num) (by norm_num)
    (by norm_num)).2
    (by
      rw [show (1 : ℝ) - 1 = 0 by norm_num, abs_zero]
      norm_num)

/-- C5 counterexample: constructing with lambda_m = -1 ≤ 0 (alpha = 2,
lambda_u = 1, rho = 45/100) raises no ValidationError — `__init__` never
checks the sign of the rates, so for a quadrature outcome passing the
normalization check (here I = 1) construction succeeds. -/
theorem lambda_sign_not_validated :
    ((-1 : ℝ) ≤ 0) ∧
    mkRCG 2 (-1) 1 (45/100) 1 = .ok ⟨2, -1, 1, -1/1, 45/100⟩ := by
  refine ⟨by norm_num, ?_⟩
  have hpass : assertAlmostEqual5 1 1 := by
    unfold assertAlmostEqual5
    rw [sub_self, abs_zero]
    norm_num
  simp only [mkRCG]
  rw [if_neg (by norm_num), if_neg (not_not_intro ⟨by norm_num, by norm_num⟩),
    if_neg (not_not_intro hpass)]

/-- C5 amended: construction fails with ValidationError when alpha ≤ 1
or when rho lies outside [0,1]; the positivity of lambda_m and lambda_u
is not validated — with alpha and rho valid and the normalization check
passing, construction succeeds for arbitrary rates. -/
theorem parameter_validation_spec (alpha lambda_m lambda_u rho I : ℝ) :
    (alpha ≤ 1 → mkRCG alpha lambda_m lambda_u rho I = .error .alphaInvalid) ∧
    (1 < alpha → ¬ (0 ≤ rho ∧ rho ≤ 1) →
      mkRCG alpha lambda_m lambda_u rho I = .error .rhoInvalid) ∧
    (1 < alpha → 0 ≤ rho → rho ≤ 1 → assertAlmostEqual5 I 1 →
      mkRCG alpha lambda_m lambda_u rho I =
        .ok ⟨alpha, lambda_m, lambda_u, lambda_m / lambda_u, rho⟩) := by
  refine ⟨fun h1 => ?_, fun h1 h2 => ?_, fun h1 h2 h3 h4 => ?_⟩
  · simp only [mkRCG]
    rw [if_pos h1]
  · simp only [mkRCG]
    rw [if_neg (not_le.mpr h1), if_pos h2]
  · simp only [mkRCG]
    rw [if_neg (not_le.mpr h1), if_neg (not_not_intro ⟨h2, h3⟩),
      if_neg (not_not_intro h4)]

/-- Witness for the amended C5: the three branches at concrete inputs. -/
theorem parameter_validation_spec_witness :
    mkRCG 1 0 0 0 0 = .error .alphaInvalid ∧
    mkRCG 2 0 0 2 0 = .error .rhoInvalid ∧
    mkRCG 2 1 1 0 1 = .ok ⟨2, 1, 1, 1/1, 0⟩ :=
  ⟨(parameter_validation_spec 1 0 0 0 0).1 le_rfl,
   (parameter_validation_spec 2 0 0 2 0).2.1 (by norm_num)
     (by rintro ⟨-, h⟩; norm_num at h),
   (parameter_validation_spec 2 1 1 0 1).2.2 (by norm_num) le_rfl
     (by norm_num)
     (by
       unfold assertAlmostEqual5
       rw [sub_self, abs_zero]
       norm_num)⟩

/-- C6: for a positive estimated envelope scale, the sampler constructor
raises EfficiencyTooLowError exactly when the derived efficiency 1/M is
below 0.01, and otherwise returns the sampler state with M = Mest and
efficiency = 1/Mest. -/
theorem efficiency_guard_spec (Mest : ℝ) (hM : 0 < Mest) :
    (mkSampler Mest = .error .efficiencyTooLow ↔ 1 / Mest < 0.01) ∧
    (0.01 ≤ 1 / Mest → mkSampler Mest = .ok ⟨Mest, 1 / Mest⟩) := by
  simp only [mkSampler]
  by_cases h : 1 / Mest < 0.01
  · rw [if_pos h]
    exact ⟨⟨fun _ => h, fun _ => rfl⟩, fun hc => absurd h (not_lt.mpr hc)⟩
  · rw [if_neg h]
    exact ⟨⟨fun hc => absurd hc (by simp), fun hc => absurd hc h⟩,
      fun _ => rfl⟩

/-- Witness for C6 at Mest = 2 (efficiency 1/2 ≥ 0.01). -/
theorem efficiency_guard_spec_witness :
    mkSampler 2 = .ok ⟨2, 1/2⟩ :=
  (efficiency_guard_spec 2 (by norm_num)).2 (by norm_num)

/-- C7 counterexample: construct with estimate Mest = 2 (so
efficiency = 1/2), then override M to 1000 as `sample.py` does; the
stored efficiency is still 1/2, not 1/1000, so the invariant
`efficiency = 1/M` fails after the override. -/
theorem efficiency_stale_after_override :
    mkSampler 2 = .ok ⟨2, 1/2⟩ ∧
    (setM ⟨2, 1/2⟩ 1000).M = 1000 ∧
    (setM ⟨2, 1/2⟩ 1000).efficiency = 1/2 ∧
    (1 : ℝ)/2 ≠ 1/1000 := by
  refine ⟨?_, rfl, rfl, by norm_num⟩
  simp only [mkSampler]
  rw [if_neg (by norm_num : ¬ (1 : ℝ) / 2 < 0.01)]

/-- C7 amended: the invariant `efficiency = 1/M` holds at construction,
but the `M` setter updates only `M` and leaves `efficiency` at its
construction-time value, so the invariant does not survive an override. -/
theorem setM_updates_only_M (Mest : ℝ) (s : SamplerState) (v : ℝ)
    (h : mkSampler Mest = .ok s) :
    s.efficiency = 1 / s.M ∧
    (setM s v).M = v ∧
    (setM s v).efficiency = s.efficiency := by
  refine ⟨?_, rfl, rfl⟩
  simp only [mkSampler] at h
  by_cases hc : 1 / Mest < 0.01
  · rw [if_pos hc] at h
    exact absurd h (by simp)
  · rw [if_neg hc] at h
    injection h with h2
    rw [← h2]

/-- Witness for the amended C7 at Mest = 2, override value 1000. -/
theorem setM_updates_only_M_witness :
    (⟨2, 1/2⟩ : SamplerState).efficiency = 1 / (⟨2, 1/2⟩ : SamplerState).M ∧
    (setM ⟨2, 1/2⟩ 1000).M = 1000 ∧
    (setM ⟨2, 1/2⟩ 1000).efficiency = (⟨2, 1/2⟩ : SamplerState).efficiency :=
  setM_updates_only_M 2 ⟨2, 1/2⟩ 1000
    (by
      simp only [mkSampler]
      rw [if_neg (by norm_num : ¬ (1 : ℝ) / 2 < 0.01)])

/-- C8 counterexample: with alpha = 1/2 ≤ 1 and estimated M = 200
(efficiency 1/200 < 0.01), the default selection raises
EfficiencyTooLowError from the `RejectionSamplerRCG` constructor; the
ratio-of-uniforms sampler is never selected, because the in-function
efficiency check sits after a constructor that has already raised. -/
theorem sru_fallback_unreachable :
    chooseSampler (1/2) 200 = .error .efficiencyTooLow ∧
    chooseSampler (1/2) 200 ≠ .ok .sru := by
  have hm : mkSampler 200 = .error .efficiencyTooLow := by
    simp only [mkSampler]
    rw [if_pos (by norm_num : (1 : ℝ) / 200 < 0.01)]
  have h : chooseSampler (1/2) 200 = .error .efficiencyTooLow := by
    simp only [chooseSampler]
    rw [if_neg (by norm_num : ¬ (1 : ℝ) < 1/2)]
    simp [hm]
  exact ⟨h, by rw [h]; simp⟩

/-- C8 amended: with the strategy unspecified, alpha > 1 selects the
transformed-density-rejection sampler; alpha ≤ 1 with efficiency ≥ 0.01
selects the custom rejection sampler; alpha ≤ 1 with efficiency < 0.01
raises EfficiencyTooLowError (the ratio-of-uniforms branch is dead). -/
theorem strategy_selection_spec (alpha Mest : ℝ) (hM : 0 < Mest) :
    (1 < alpha → chooseSampler alpha Mest = .ok .tdr) ∧
    (alpha ≤ 1 → 0.01 ≤ 1 / Mest → chooseSampler alpha Mest = .ok .rej) ∧
    (alpha ≤ 1 → 1 / Mest < 0.01 →
      chooseSampler alpha Mest = .error .efficiencyTooLow) := by
  refine ⟨fun h => ?_, fun h1 h2 => ?_, fun h1 h2 => ?_⟩
  · simp only [chooseSampler]
    rw [if_pos h]
  · have hm : mkSampler Mest = .ok ⟨Mest, 1 / Mest⟩ := by
      simp only [mkSampler]
      rw [if_neg (not_lt.mpr h2)]
    simp only [chooseSampler]
    rw [if_neg (not_lt.mpr h1)]
    simp only [hm]
    rw [if_neg (not_lt.mpr h2)]
  · have hm : mkSampler Mest = .error .efficiencyTooLow := by
      simp only [mkSampler]
      rw [if_pos h2]
    simp only [chooseSampler]
    rw [if_neg (not_lt.mpr h1)]
    simp [hm]

/-- Witness for the amended C8: the two live branches at concrete inputs. -/
theorem strategy_selection_spec_witness :
    chooseSampler 2 5 = .ok .tdr ∧ chooseSampler (1/2) 5 = .ok .rej :=
  ⟨(strategy_selection_spec 2 5 (by norm_num)).1 (by norm_num),
   (strategy_selection_spec (1/2) 5 (by norm_num)).2.1 (by norm_num)
     (by norm_num)⟩

/-- C9 counterexample: with theta = 2 and scale = -1, the computed rates
are lambda_m = -2 and lambda_u = -1, and lambda_m is below scale, so
"both rates are at least scale" fails for negative scale. -/
theorem rate_below_scale_for_negative_scale :
    resolveRates (some 2) (-1) = .ok (-2, -1) ∧ ¬ ((-1 : ℝ) ≤ -2) := by
  constructor
  · simp only [resolveRates]
    rw [if_neg (by norm_num : ¬ (2 : ℝ) ≤ 0)]
    norm_num [max_def, min_def]
  · norm_num

/-- C9 amended: with `dist` omitted, a missing or nonpositive theta fails
with ValidationError; otherwise the rates passed to the constructor are
lambda_m = scale·max(theta,1) and lambda_u = scale/min(theta,1), and
for positive scale both rates are at least scale and their ratio is
exactly theta. -/
theorem resolve_rates_spec (theta scale : ℝ) :
    resolveRates none scale = .error .thetaMissing ∧
    (theta ≤ 0 → resolveRates (some theta) scale = .error .thetaInvalid) ∧
    (0 < theta → resolveRates (some theta) scale =
      .ok (scale * max theta 1, scale * (1 / min theta 1))) ∧
    (0 < theta → 0 < scale →
      scale ≤ scale * max theta 1 ∧
      scale ≤ scale * (1 / min theta 1) ∧
      (scale * max theta 1) / (scale * (1 / min theta 1)) = theta) := by
  refine ⟨rfl, fun h => ?_, fun h => ?_, fun h hs => ?_⟩
  · simp only [resolveRates]
    rw [if_pos h]
  · simp only [resolveRates]
    rw [if_neg (not_le.mpr h)]
  · have hmin : 0 < min theta 1 := lt_min h one_pos
    have hdiv : 1 ≤ 1 / min theta 1 := by
      rw [le_div_iff₀ hmin, one_mul]
      exact min_le_right _ _
    refine ⟨le_mul_of_one_le_right hs.le (le_max_right _ _),
      le_mul_of_one_le_right hs.le hdiv, ?_⟩
    have key : min theta 1 * max theta 1 = theta := by
      rw [min_mul_max, mul_one]
    rw [div_eq_iff (mul_ne_zero hs.ne' (one_div_ne_zero hmin.ne'))]
    field_simp
    linear_combination scale * key

/-- Witness for the amended C9 at theta = 2, scale = 3. -/
theorem resolve_rates_spec_witness :
    resolveRates (some 2) 3 = .ok (3 * max 2 1, 3 * (1 / min 2 1)) ∧
    ((3 : ℝ) ≤ 3 * max 2 1 ∧ (3 : ℝ) ≤ 3 * (1 / min 2 1) ∧
      (3 * max (2 : ℝ) 1) / (3 * (1 / min 2 1)) = 2) :=
  ⟨(resolve_rates_spec 2 3).2.2.1 (by norm_num),
   (resolve_rates_spec 2 3).2.2.2 (by norm_num) (by norm_num)⟩

end RatioCorrGammas
